import Mathlib

/-!
Verification development for the `file_folder_permissions` module of the
SigmaToolkit repository (`src/file_folder_permissions/permissions_tools.py`).

Python strings are modelled as lists of characters (`Str`), and the handful
of Python string primitives the module uses (`strip`, `upper`, `lower`,
`split`, `join`, `find`, substring containment, slicing) are modelled as
executable functions on `Str`.  The model covers ASCII data, which is all
the module ever manipulates (permission codes, flag names, CSV columns).

Stateful parts (subprocess invocations, wall-clock timestamps) are made
explicit: command outcomes are an inductive `CmdOutcome`, and each scan
receives the record-creation time as an explicit `DateTime` argument.
-/

set_option maxRecDepth 4096

abbrev Str := List Char

/-- Whitespace characters stripped by Python `str.strip()` (ASCII subset). -/
def pyIsSpace (c : Char) : Bool :=
  c = ' ' || c = '\t' || c = '\n' || c = '\r' || c = '\x0b' || c = '\x0c'

/-- Python `s.strip()`: drop leading and trailing whitespace. -/
def pyStrip (s : Str) : Str :=
  ((s.dropWhile pyIsSpace).reverse.dropWhile pyIsSpace).reverse

/-- Python `s.upper()` (ASCII). -/
def pyUpper (s : Str) : Str := s.map Char.toUpper

/-- Python `s.lower()` (ASCII). -/
def pyLower (s : Str) : Str := s.map Char.toLower

/-- Python `s.split(sep)` for a one-character separator: `''.split(',') = ['']`. -/
def pySplit (sep : Char) : Str → List Str
  | [] => [[]]
  | c :: rest =>
    if c = sep then [] :: pySplit sep rest
    else
      match pySplit sep rest with
      | f :: fs => (c :: f) :: fs
      | [] => [[c]]

/-- Python `sep.join(parts)`. -/
def pyJoin (sep : Str) : List Str → Str
  | [] => []
  | [x] => x
  | x :: xs => x ++ sep ++ pyJoin sep xs

/-- Python `s.find(pat)` restricted to a successful result: index of the first
occurrence of `pat` in `s`, or `none` when `pat` does not occur. -/
def pyFind (pat : Str) : Str → Option Nat
  | [] => if pat.isEmpty then some 0 else none
  | c :: t => if pat.isPrefixOf (c :: t) then some 0 else (pyFind pat t).map (· + 1)

/-- Python `pat in s` (substring containment). -/
def pyContainsSub (pat s : Str) : Bool := (pyFind pat s).isSome

/-- Boolean membership of a string in a list of strings. -/
def strMem (c : Str) (l : List Str) : Bool := l.any (fun x => decide (c = x))

/-!
The permission-code converter
`PermissionScanner._convert_to_readable_permissions` (permissions_tools.py
lines 348-393).
-/

/-- `['F', 'FC', 'FULLCONTROL']` (line 359). -/
def fullControlCodes : List Str := ["F", "FC", "FULLCONTROL"].map String.toList

/-- `['M', 'MODIFY']` (line 363). -/
def modifyCodes : List Str := ["M", "MODIFY"].map String.toList

/-- `['R', 'RX', 'RC', 'GR', 'RD']` (line 367). -/
def readCodes : List Str := ["R", "RX", "RC", "GR", "RD"].map String.toList

/-- `['W', 'WD', 'AD', 'WEA', 'GW']` (line 368). -/
def writeCodes : List Str := ["W", "WD", "AD", "WEA", "GW"].map String.toList

/-- `['RX', 'X', 'GE']` (line 369). -/
def executeCodes : List Str := ["RX", "X", "GE"].map String.toList

/-- `['D', 'DC', 'DA']` (line 370). -/
def deleteCodes : List Str := ["D", "DC", "DA"].map String.toList

/-- `['RX']` (line 373): RX forces both has_read and has_execute. -/
def rxCode : List Str := ["RX"].map String.toList

/-- The phrase returned for full control and for modify. -/
def fullControlPhrase : Str := "Read, Write, Change, Delete, List".toList

/-- `any(code in l for code in codes)` as used on lines 359-373. -/
def hasAnyOf (codes : List Str) (l : List Str) : Bool :=
  codes.any (fun code => strMem code l)

/-- `[code.strip().upper() for code in permission_code.split(',')]` (line 354). -/
def normCodes (permission_code : Str) : List Str :=
  (pySplit ',' permission_code).map (fun code => pyUpper (pyStrip code))

/-- Lines 377-389: build `readable_permissions` by sequential appends.
`has_read`/`has_execute` arrive here already forced by the RX rule of lines
373-375; `has_modify` is `any(code in ['M', 'MODIFY'] ...)` re-evaluated on
line 382. The "not in" dedup checks of lines 383 and 388 are kept. -/
def buildReadableList (has_read has_write has_modify has_delete has_execute : Bool) : List Str :=
  let r0 : List Str := []
  let r1 := if has_read then r0 ++ ["Read".toList] else r0
  let r2 := if has_write then r1 ++ ["Write".toList] else r1
  let r3 := if has_write || has_modify then
      (if strMem "Change".toList r2 then r2 else r2 ++ ["Change".toList]) else r2
  let r4 := if has_delete then r3 ++ ["Delete".toList] else r3
  if has_execute || has_read then
      (if strMem "List".toList r4 then r4 else r4 ++ ["List".toList]) else r4

/-- Line 391: `', '.join(readable_permissions) if readable_permissions else ""`. -/
def joinReadable (l : List Str) : Str :=
  if l.isEmpty then [] else pyJoin ", ".toList l

/-- `PermissionScanner._convert_to_readable_permissions` (lines 348-393):
split the comma-joined code string, normalize each code with
`strip().upper()`, return the full-control phrase if any code is in
`['F','FC','FULLCONTROL']`, else if any is in `['M','MODIFY']`, else build
the phrase from the four booleans of lines 367-375. -/
def convert_to_readable_permissions (permission_code : Str) : Str :=
  if hasAnyOf (normCodes permission_code) fullControlCodes then fullControlPhrase
  else if hasAnyOf (normCodes permission_code) modifyCodes then fullControlPhrase
  else
    joinReadable (buildReadableList
      (hasAnyOf (normCodes permission_code) readCodes || hasAnyOf (normCodes permission_code) rxCode)
      (hasAnyOf (normCodes permission_code) writeCodes)
      (hasAnyOf (normCodes permission_code) modifyCodes)
      (hasAnyOf (normCodes permission_code) deleteCodes)
      (hasAnyOf (normCodes permission_code) executeCodes || hasAnyOf (normCodes permission_code) rxCode))

/-- The claimed converter, written from the words of claim C2: full-control
precedence, then modify, then four booleans (`RX` forcing `has_read` and
`has_execute`), then the phrase assembled in the fixed order Read, Write,
Change, Delete, List with no duplicates, empty when no boolean is true. -/
def claimedReadableList (has_read has_write has_execute has_delete : Bool) : List Str :=
  (if has_read then ["Read".toList] else [])
    ++ (if has_write then ["Write".toList] else [])
    ++ (if has_write then ["Change".toList] else [])
    ++ (if has_delete then ["Delete".toList] else [])
    ++ (if has_execute || has_read then ["List".toList] else [])

/-- The converter as described by claim C2 (the spec's wording), for
comparison with `convert_to_readable_permissions`. -/
def claimed_convert (permission_code : Str) : Str :=
  if hasAnyOf (normCodes permission_code) fullControlCodes then fullControlPhrase
  else if hasAnyOf (normCodes permission_code) modifyCodes then fullControlPhrase
  else
    pyJoin ", ".toList (claimedReadableList
      (hasAnyOf (normCodes permission_code) readCodes || hasAnyOf (normCodes permission_code) rxCode)
      (hasAnyOf (normCodes permission_code) writeCodes)
      (hasAnyOf (normCodes permission_code) executeCodes || hasAnyOf (normCodes permission_code) rxCode)
      (hasAnyOf (normCodes permission_code) deleteCodes))

/-!
The icacls output parser
`PermissionScanner._scan_single_folder` (permissions_tools.py lines 79-182).
-/

/-- Timestamps (`datetime.now()` stored in `PermissionEntry.timestamp`,
line 27). `strftime('%Y-%m-%d %H:%M:%S')` keeps fields down to the second,
so the microsecond field is what that format discards. -/
structure DateTime where
  year : Nat
  month : Nat
  day : Nat
  hour : Nat
  minute : Nat
  second : Nat
  microsecond : Nat
deriving DecidableEq, Repr

/-- The `PermissionEntry` data class (lines 17-27). -/
structure PermissionEntry where
  path : Str
  identity : Str
  permission : Str
  access_type : Str
  inherited : Bool
  timestamp : DateTime
deriving DecidableEq, Repr

/-- `re.findall(r'\(([^)]+)\)', permission_part)` (line 135), as a one-pass
scan. The regex matches an opening parenthesis, a nonempty greedy run of
non-`)` characters, then a `)`; `re.findall` scans left to right, resuming
after each match and advancing one character after a failed attempt. The
accumulator is `some acc` while inside a candidate group (after an `(`,
collecting non-`)` characters) and `none` outside; a `)` closing a nonempty
group emits it, a `)` right after `(` emits nothing (the regex needs at
least one inner character). Both behaviours resume scanning after the `)`,
exactly as the regex engine does. -/
def parenScan : Str → Option Str → List Str
  | [], _ => []
  | c :: rest, none => if c = '(' then parenScan rest (some []) else parenScan rest none
  | c :: rest, some acc =>
    if c = ')' then
      if acc.isEmpty then parenScan rest none else acc :: parenScan rest none
    else parenScan rest (some (acc ++ [c]))

/-- All captures of `re.findall(r'\(([^)]+)\)', s)`. -/
def findParenGroups (s : Str) : List Str := parenScan s none

/-- `['F', 'M', 'RX', 'R', 'W', 'D', 'C', 'RC', 'WD', 'AD', 'WEA', 'REA',
'X', 'DC']` (line 149): the codes the line-level filter accepts. -/
def recognizedPermissionCodes : List Str :=
  ["F", "M", "RX", "R", "W", "D", "C", "RC", "WD", "AD", "WEA", "REA", "X", "DC"].map String.toList

/-- State of the flag-classification loop of lines 140-152. -/
structure ParsedFlags where
  codes : List Str
  inherited : Bool
  access_type : Str
deriving DecidableEq, Repr

/-- One iteration of the loop of lines 144-152: `I` sets inherited, `DENY`
sets the access type, a recognized permission code is appended, anything
else (OI, CI, IO, ...) is skipped. -/
def classifyStep (st : ParsedFlags) (m : Str) : ParsedFlags :=
  if m = "I".toList then { st with inherited := true }
  else if m = "DENY".toList then { st with access_type := "Deny".toList }
  else if strMem m recognizedPermissionCodes then { st with codes := st.codes ++ [m] }
  else st

/-- The whole loop of lines 140-152, starting from
`permission_codes = []`, `inherited = False`, `access_type = 'Allow'`. -/
def classifyMatches (paren_matches : List Str) : ParsedFlags :=
  paren_matches.foldl classifyStep ⟨[], false, "Allow".toList⟩

/-- The substring `':('` used to split a line (lines 122-124). -/
def colonParen : Str := ":(".toList

/-- Body of the per-line loop of `_scan_single_folder` (lines 109-171) for
one line of icacls output: strip, skip empty/noise lines, skip the first
line (`i = 0`) and lines starting with the scanned path, split at the first
`':('` (requiring it at a positive position), take the flag payload as
`line[pos + 2:]` (the source skips the two characters of `':('`), extract
parenthesized groups, classify them, convert the collected codes, and emit
one record when both the identity and the converted permission are
nonempty. -/
def parseIcaclsLine (normalized_path : Str) (now : DateTime) (i : Nat) (raw_line : Str) :
    List PermissionEntry :=
  let line := pyStrip raw_line
  if line.isEmpty || pyContainsSub "Successfully processed".toList line
      || pyContainsSub "files processed".toList line then []
  else if i = 0 ∨ normalized_path.isPrefixOf line then []
  else
    match pyFind colonParen line with
    | none => []
    | some pos =>
      if pos > 0 then
        let identity := pyStrip (line.take pos)
        let permission_part := line.drop (pos + 2)
        let paren_matches := findParenGroups permission_part
        if paren_matches.isEmpty then []
        else
          let flags := classifyMatches paren_matches
          if flags.codes.isEmpty then []
          else
            let readable := convert_to_readable_permissions (pyJoin [','] flags.codes)
            if identity ≠ [] ∧ readable ≠ [] then
              [{ path := normalized_path, identity := identity, permission := readable,
                 access_type := flags.access_type, inherited := flags.inherited,
                 timestamp := now }]
            else []
      else []

/-- The parenthesized groups the parser actually extracts from a raw line:
the composition of lines 111, 124, 127 and 135 (strip, find `':('`, drop
`pos + 2` characters, extract groups). Because the two dropped characters
include the `'('` that opens the first flag group, the first group after
`':('` never appears in this list. -/
def lineExtractedGroups (raw_line : Str) : List Str :=
  match pyFind colonParen (pyStrip raw_line) with
  | none => []
  | some pos => findParenGroups ((pyStrip raw_line).drop (pos + 2))

/-- The per-line parser as described by claim C5 (the spec's wording): the
flag payload is everything from `':('` onward, i.e. `line[pos:]` instead of
the source's `line[pos + 2:]`; every other step is as in the source. -/
def parseIcaclsLineSpecPayload (normalized_path : Str) (now : DateTime) (i : Nat)
    (raw_line : Str) : List PermissionEntry :=
  let line := pyStrip raw_line
  if line.isEmpty || pyContainsSub "Successfully processed".toList line
      || pyContainsSub "files processed".toList line then []
  else if i = 0 ∨ normalized_path.isPrefixOf line then []
  else
    match pyFind colonParen line with
    | none => []
    | some pos =>
      if pos > 0 then
        let identity := pyStrip (line.take pos)
        let permission_part := line.drop pos
        let paren_matches := findParenGroups permission_part
        if paren_matches.isEmpty then []
        else
          let flags := classifyMatches paren_matches
          if flags.codes.isEmpty then []
          else
            let readable := convert_to_readable_permissions (pyJoin [','] flags.codes)
            if identity ≠ [] ∧ readable ≠ [] then
              [{ path := normalized_path, identity := identity, permission := readable,
                 access_type := flags.access_type, inherited := flags.inherited,
                 timestamp := now }]
            else []
      else []

/-- Lines 107-172: split stdout on newlines, enumerate, and run the
per-line parser, concatenating the emitted records in order. -/
def parse_icacls_output (normalized_path : Str) (now : DateTime) (stdout : Str) :
    List PermissionEntry :=
  ((pySplit '\n' stdout).enum).flatMap (fun p => parseIcaclsLine normalized_path now p.1 p.2)

/-!
The PowerShell fallback parser and the scan control flow
`PermissionScanner._scan_single_folder_powershell` (lines 184-251) and the
failure/fallback dispatch of `_scan_single_folder` (lines 84-182) and
`scan_folder_permissions` (lines 52-77).
-/

/-- One line of the pipe-delimited PowerShell fallback output
(lines 225-243): strip, require a `|` and a nonempty line, split on `|`,
require at least five parts, strip each column, decode `inherited` by
lower-cased comparison with `'true'`, and keep the row only when the
permission column is nonempty. -/
def parsePowershellLine (now : DateTime) (raw : Str) : List PermissionEntry :=
  let line := pyStrip raw
  if pyContainsSub ['|'] line ∧ line ≠ [] then
    let parts := pySplit '|' line
    if parts.length ≥ 5 then
      let path := pyStrip (parts.getD 0 [])
      let identity := pyStrip (parts.getD 1 [])
      let permission := pyStrip (parts.getD 2 [])
      let access_type := pyStrip (parts.getD 3 [])
      let inherited := decide (pyLower (pyStrip (parts.getD 4 [])) = "true".toList)
      if permission ≠ [] then
        [{ path := path, identity := identity, permission := permission,
           access_type := access_type, inherited := inherited, timestamp := now }]
      else []
    else []
  else []

/-- Lines 224-243: `result.stdout.strip().split('\n')`, then the per-line
parse, concatenating emitted records in order. -/
def parse_powershell_output (now : DateTime) (stdout : Str) : List PermissionEntry :=
  (pySplit '\n' (pyStrip stdout)).flatMap (parsePowershellLine now)

/-- Outcome of one `subprocess.run` invocation: either a completed process
with exit code, stdout and stderr, or a raised exception. -/
inductive CmdOutcome where
  | ok (returncode : Int) (stdout : Str) (stderr : Str)
  | exn
deriving DecidableEq, Repr

/-- The environment one directory scan runs in: the (already
`os.path.normpath`-normalized) directory path, whether `os.path.exists`
holds, the outcomes of the `icacls` and fallback `powershell` invocations,
and the wall-clock time stamped onto created records. -/
structure ScanEnv where
  path : Str
  pathExists : Bool
  icacls : CmdOutcome
  powershell : CmdOutcome
  now : DateTime
deriving DecidableEq, Repr

/-- `_scan_single_folder_powershell` (lines 184-251): an exception yields
`[]` (caught on line 248); a completed process is parsed only when the exit
code is 0 and the stripped stdout is nonempty (line 223), otherwise `[]`. -/
def scan_single_folder_powershell (env : ScanEnv) : List PermissionEntry :=
  match env.powershell with
  | .exn => []
  | .ok rc out _err =>
    if rc = 0 ∧ pyStrip out ≠ [] then parse_powershell_output env.now out else []

/-- `_scan_single_folder` (lines 79-182): a nonexistent path yields `[]`
(line 89); an icacls exception (line 175) or nonzero exit code (line 101)
falls back to the PowerShell scan; otherwise the icacls stdout is parsed. -/
def scan_single_folder (env : ScanEnv) : List PermissionEntry :=
  if env.pathExists = false then []
  else
    match env.icacls with
    | .exn => scan_single_folder_powershell env
    | .ok rc out _err =>
      if rc ≠ 0 then scan_single_folder_powershell env
      else parse_icacls_output env.path env.now out

/-- The multi-directory loop of `scan_folder_permissions` (lines 63-66):
scan each enumerated directory with `_scan_single_folder` and extend the
accumulated list. The directory enumeration itself (`os.walk`) is
OS-dependent and is modelled as the given list of per-directory
environments. -/
def scan_folders (envs : List ScanEnv) : List PermissionEntry :=
  envs.flatMap scan_single_folder

/-- `True` when the icacls invocation failed in the sense of claim C4:
exception, or nonzero exit code. -/
def icaclsFailed : CmdOutcome → Bool
  | .exn => true
  | .ok rc _ _ => decide (rc ≠ 0)

/-- `True` when the PowerShell fallback failed in the sense of claim C4:
exception, nonzero exit code, or empty (stripped) stdout. -/
def powershellFailed : CmdOutcome → Bool
  | .exn => true
  | .ok rc out _ => decide (rc ≠ 0) || (pyStrip out).isEmpty

/-!
The identity classifier and the summary statistics
`PermissionScanner.is_ad_group` (lines 395-399) and
`PermissionsTools.get_summary_stats` (lines 525-553).
-/

/-- `ad_indicators = ['DOMAIN\\', 'BUILTIN\\', '\\Domain', '\\']`
(line 398). -/
def adIndicators : List Str := ["DOMAIN\\", "BUILTIN\\", "\\Domain", "\\"].map String.toList

/-- `is_ad_group` (lines 395-399): `any(indicator in identity.upper() for
indicator in ad_indicators)`. -/
def is_ad_group (identity : Str) : Bool :=
  adIndicators.any (fun indicator => pyContainsSub indicator (pyUpper identity))

/-- The dictionary returned by `get_summary_stats` (lines 525-553). -/
structure SummaryStats where
  total_entries : Nat
  unique_paths : Nat
  unique_identities : Nat
  ad_groups : Nat
  inherited_permissions : Nat
  explicit_permissions : Nat
  deny_permissions : Nat
deriving DecidableEq, Repr

/-- `get_summary_stats` (lines 525-553): all-zero for an empty list
(lines 527-536); otherwise set cardinalities for paths and identities and
filter lengths for the remaining counters (lines 538-553). -/
def get_summary_stats (permissions : List PermissionEntry) : SummaryStats :=
  if permissions.isEmpty then ⟨0, 0, 0, 0, 0, 0, 0⟩
  else
    { total_entries := permissions.length
      unique_paths := ((permissions.map fun p => p.path).dedup).length
      unique_identities := ((permissions.map fun p => p.identity).dedup).length
      ad_groups := (permissions.filter fun p => is_ad_group p.identity).length
      inherited_permissions := (permissions.filter fun p => p.inherited).length
      explicit_permissions := (permissions.filter fun p => !p.inherited).length
      deny_permissions :=
        (permissions.filter fun p => decide (pyLower p.access_type = "deny".toList)).length }

/-!
CSV export
`PermissionsTools.export_to_csv` (lines 486-502) writes one header row and
`perm.to_dict()` (lines 29-37) per entry through `csv.DictWriter` with the
default dialect: fields are quoted (with inner `"` doubled) exactly when
they contain `,`, `"`, CR or LF, and each record is terminated by CRLF.
The export is modelled as the list of record strings (one per CSV record);
re-parsing is modelled per record with the matching quote-aware reader.
-/

/-- `str(b)` for a Python bool, as `csv.DictWriter` stringifies the
`Inherited` column. -/
def pyBoolStr (b : Bool) : Str := if b then "True".toList else "False".toList

/-- Left-pad the decimal digits of `n` with zeros to width `w`
(`strftime` zero-padding). -/
def padNum (w : Nat) (n : Nat) : Str :=
  let ds := Nat.toDigits 10 n
  List.replicate (w - ds.length) '0' ++ ds

/-- `timestamp.strftime('%Y-%m-%d %H:%M:%S')` (line 36): the microsecond
field of the timestamp is not rendered. -/
def pyStrftime (t : DateTime) : Str :=
  padNum 4 t.year ++ ['-'] ++ padNum 2 t.month ++ ['-'] ++ padNum 2 t.day ++ [' ']
    ++ padNum 2 t.hour ++ [':'] ++ padNum 2 t.minute ++ [':'] ++ padNum 2 t.second

/-- The values of `to_dict` (lines 29-37) in the column order
`['Path', 'Identity', 'Permission', 'Access Type', 'Inherited',
'Scan Time']` fixed on line 490. -/
def to_dict_fields (e : PermissionEntry) : List Str :=
  [e.path, e.identity, e.permission, e.access_type, pyBoolStr e.inherited,
   pyStrftime e.timestamp]

/-- A field must be quoted when it contains the delimiter, the quote
character, or a line-terminator character (csv QUOTE_MINIMAL). -/
def csvNeedsQuote (f : Str) : Bool :=
  f.any (fun c => c = ',' || c = '"' || c = '\r' || c = '\n')

/-- Double every `"` inside a quoted field. -/
def csvEscape : Str → Str
  | [] => []
  | c :: rest => if c = '"' then '"' :: '"' :: csvEscape rest else c :: csvEscape rest

/-- Render one field, quoting it only when needed. -/
def csvField (f : Str) : Str :=
  if csvNeedsQuote f then '"' :: (csvEscape f ++ ['"']) else f

/-- Render one CSV record (without its CRLF terminator). -/
def csvWriteRow (fields : List Str) : Str := pyJoin [','] (fields.map csvField)

/-- The header record written by line 493. -/
def csvHeaderRow : Str :=
  csvWriteRow (["Path", "Identity", "Permission", "Access Type", "Inherited",
    "Scan Time"].map String.toList)

/-- `export_to_csv` (lines 486-502) as the list of CSV records it writes:
the header record, then one record per entry in order. -/
def export_to_csv_rows (permissions : List PermissionEntry) : List Str :=
  csvHeaderRow :: permissions.map (fun perm => csvWriteRow (to_dict_fields perm))

/-- Prepend a string onto the first field of a field list. -/
def prependHead (p : Str) : List Str → List Str
  | f :: fs => (p ++ f) :: fs
  | [] => [p]

/-- Split a CSV record at the commas that are outside quotes. A `"` toggles
the in-quotes state (a doubled `""` toggles twice), and every character
other than a top-level comma is kept in the current raw field. -/
def csvSplitFields : Bool → Str → List Str
  | _, [] => [[]]
  | inQ, c :: rest =>
    if c = '"' then prependHead [c] (csvSplitFields (!inQ) rest)
    else if c = ',' ∧ inQ = false then [] :: csvSplitFields inQ rest
    else prependHead [c] (csvSplitFields inQ rest)

/-- Collapse the doubled quotes of a quoted field body. -/
def csvUnquote : Str → Str
  | [] => []
  | [c] => [c]
  | c :: c2 :: rest =>
    if c = '"' then
      if c2 = '"' then '"' :: csvUnquote rest
      else c :: csvUnquote (c2 :: rest)
    else c :: csvUnquote (c2 :: rest)

/-- Decode one raw field: a field that starts with `"` is dequoted (outer
quotes removed, inner doubled quotes collapsed), anything else is literal. -/
def csvDecodeField (f : Str) : Str :=
  match f with
  | c :: rest => if c = '"' then csvUnquote rest.dropLast else c :: rest
  | [] => []

/-- Re-parse one CSV record into its column values. -/
def csvParseRow (s : Str) : List Str := (csvSplitFields false s).map csvDecodeField

/-- The `(path, identity, permission, access_type, inherited)` tuple read
back from the columns of one parsed record (the `Inherited` column is the
string `str(bool)` wrote). -/
def rowTuple (fields : List Str) : Option (Str × Str × Str × Str × Bool) :=
  match fields with
  | [p, i, perm, a, inh, _scan_time] => some (p, i, perm, a, decide (inh = "True".toList))
  | _ => none

/-!
Concrete inputs used by the witnesses and counterexamples
-/

/-- A concrete scanned path used in concrete evaluations. -/
def demoPath : Str := "C:\\data".toList

/-- A concrete record-creation time used in concrete evaluations. -/
def demoTime : DateTime := ⟨2024, 5, 17, 10, 30, 0, 250000⟩

/-- A line whose parenthesized groups include `FULLCONTROL` (claim C1). -/
def demoFullcontrolLine : Str := "u:(I)(FULLCONTROL)(R)".toList

/-- A line carrying `F` in a position the parser can see (claim C1). -/
def demoFLine : Str := "u:(I)(F)(R)".toList

/-- The deny line of the spec's end-to-end example (claims C5, C6). -/
def demoDenyLine : Str := "DOMAIN\\jdoe:(DENY)(R)".toList

/-- A deny line with a generic identity (claim C5). -/
def demoDenyLineShort : Str := "u:(DENY)(R)".toList

/-- A line whose first `':('` occurrence is at position 0 (claim C9). -/
def demoColonFirstLine : Str := ":(F)".toList

/-- A scan environment whose icacls invocation raises and whose PowerShell
fallback exits nonzero (claim C4). -/
def demoFailedEnv : ScanEnv :=
  { path := demoPath, pathExists := true, icacls := .exn,
    powershell := .ok 1 [] "access denied".toList, now := demoTime }

/-- A scan environment whose icacls invocation succeeds with one
permission line (claims C3, C4). -/
def demoOkEnv : ScanEnv :=
  { path := demoPath, pathExists := true,
    icacls := .ok 0 "C:\\data BUILTIN\\Administrators:(I)(F)\n BUILTIN\\Administrators:(I)(OI)(CI)(F)\n\nSuccessfully processed 1 files\n".toList [],
    powershell := .exn, now := demoTime }

/-- The single record `demoOkEnv` produces. -/
def demoOkEntry : PermissionEntry :=
  { path := demoPath, identity := "BUILTIN\\Administrators".toList,
    permission := fullControlPhrase, access_type := "Allow".toList,
    inherited := false, timestamp := demoTime }

/-- The single record the parser emits for `demoFLine`. -/
def demoFEntry : PermissionEntry :=
  { path := demoPath, identity := "u".toList, permission := fullControlPhrase,
    access_type := "Allow".toList, inherited := false, timestamp := demoTime }

/-!
Sanity checks: concrete evaluations of the model, including the end-to-end
example lines of the spec.
-/

example : pyStrip "  ab c \t".toList = "ab c".toList := by decide

example : pySplit ',' "F,RX".toList = ["F".toList, "RX".toList] := by decide

example : pyFind ":(".toList "u:(F)".toList = some 1 := by decide

example : pyContainsSub "cess".toList "Successfully".toList = true := by decide

example : convert_to_readable_permissions "F".toList = fullControlPhrase := by decide

example : convert_to_readable_permissions "RX".toList = "Read, List".toList := by decide

example : convert_to_readable_permissions "R,W".toList = "Read, Write, Change, List".toList := by decide

example : convert_to_readable_permissions "OI".toList = [] := by decide

example : convert_to_readable_permissions "D".toList = "Delete".toList := by decide

example :
    parseIcaclsLine "C:\\data".toList ⟨2024, 1, 1, 0, 0, 0, 0⟩ 1
      "BUILTIN\\Administrators:(OI)(CI)(F)".toList
      = [{ path := "C:\\data".toList, identity := "BUILTIN\\Administrators".toList,
           permission := fullControlPhrase, access_type := "Allow".toList,
           inherited := false, timestamp := ⟨2024, 1, 1, 0, 0, 0, 0⟩ }] := by decide

example :
    parseIcaclsLine "C:\\data".toList ⟨2024, 1, 1, 0, 0, 0, 0⟩ 1
      "DOMAIN\\jdoe:(DENY)(R)".toList
      = [{ path := "C:\\data".toList, identity := "DOMAIN\\jdoe".toList,
           permission := "Read, List".toList, access_type := "Allow".toList,
           inherited := false, timestamp := ⟨2024, 1, 1, 0, 0, 0, 0⟩ }] := by decide

example :
    parseIcaclsLineSpecPayload "C:\\data".toList ⟨2024, 1, 1, 0, 0, 0, 0⟩ 1
      "DOMAIN\\jdoe:(DENY)(R)".toList
      = [{ path := "C:\\data".toList, identity := "DOMAIN\\jdoe".toList,
           permission := "Read, List".toList, access_type := "Deny".toList,
           inherited := false, timestamp := ⟨2024, 1, 1, 0, 0, 0, 0⟩ }] := by decide

example : is_ad_group "DOMAIN\\jdoe".toList = true := by decide

example : is_ad_group "Everyone".toList = false := by decide

example :
    parsePowershellLine ⟨2024, 1, 1, 0, 0, 0, 0⟩
      "C:\\data|DOMAIN\\jdoe|Read, Write|Allow|True".toList
      = [{ path := "C:\\data".toList, identity := "DOMAIN\\jdoe".toList,
           permission := "Read, Write".toList, access_type := "Allow".toList,
           inherited := true, timestamp := ⟨2024, 1, 1, 0, 0, 0, 0⟩ }] := by decide

example : parsePowershellLine ⟨2024, 1, 1, 0, 0, 0, 0⟩ "C:\\data|u||Allow|False".toList = [] := by
  decide

example :
    csvParseRow (csvWriteRow ["C:\\data".toList, "u \"x\"".toList, "Read, List".toList])
      = ["C:\\data".toList, "u \"x\"".toList, "Read, List".toList] := by decide

example : scan_single_folder demoOkEnv = [demoOkEntry] := by decide

/-!
Helper lemmas about the string model
-/

theorem pySplit_no_sep (sep : Char) : ∀ (x : Str), sep ∉ x → pySplit sep x = [x]
  | [], _ => rfl
  | c :: x', h => by
    have hc : ¬c = sep := fun hh => h (hh ▸ List.mem_cons_self c x')
    have hx : sep ∉ x' := fun hh => h (List.mem_cons_of_mem _ hh)
    simp only [pySplit, hc, if_false, pySplit_no_sep sep x' hx]

theorem pySplit_append (sep : Char) : ∀ (x s : Str), sep ∉ x →
    pySplit sep (x ++ sep :: s) = x :: pySplit sep s
  | [], s, _ => by simp [pySplit]
  | c :: x', s, h => by
    have hc : ¬c = sep := fun hh => h (hh ▸ List.mem_cons_self c x')
    have hx : sep ∉ x' := fun hh => h (List.mem_cons_of_mem _ hh)
    simp [pySplit, hc, pySplit_append sep x' s hx]

theorem pySplit_pyJoin (sep : Char) : ∀ (l : List Str), l ≠ [] →
    (∀ x ∈ l, sep ∉ x) → pySplit sep (pyJoin [sep] l) = l
  | [], hne, _ => absurd rfl hne
  | [x], _, h => pySplit_no_sep sep x (h x (List.mem_singleton.mpr rfl))
  | x :: y :: l', _, h => by
    have ih := pySplit_pyJoin sep (y :: l') (List.cons_ne_nil y l')
      (fun z hz => h z (List.mem_cons_of_mem _ hz))
    have hj : pyJoin [sep] (x :: y :: l') = x ++ [sep] ++ pyJoin [sep] (y :: l') := rfl
    rw [hj, List.append_assoc, List.singleton_append,
      pySplit_append sep x _ (h x (List.mem_cons_self _ _)), ih]

theorem strMem_iff (c : Str) (l : List Str) : strMem c l = true ↔ c ∈ l := by
  simp only [strMem, List.any_eq_true, decide_eq_true_eq]
  constructor
  · rintro ⟨x, hx, rfl⟩; exact hx
  · intro h; exact ⟨c, h, rfl⟩

theorem hasAnyOf_iff (codes l : List Str) :
    hasAnyOf codes l = true ↔ ∃ c ∈ codes, c ∈ l := by
  simp only [hasAnyOf, List.any_eq_true, strMem_iff]

/-!
Lemmas about the flag classifier and the converter
-/

theorem classify_codes_eq : ∀ (ms : List Str) (st : ParsedFlags),
    (List.foldl classifyStep st ms).codes
      = st.codes ++ ms.filter (fun m => strMem m recognizedPermissionCodes)
  | [], st => by simp
  | m :: ms', st => by
    rw [List.foldl_cons, classify_codes_eq ms', List.filter_cons]
    unfold classifyStep
    by_cases hI : m = ['I']
    · subst hI
      simp [show strMem ['I'] recognizedPermissionCodes = false from by decide]
    · by_cases hD : m = ['D', 'E', 'N', 'Y']
      · subst hD
        simp [hI, show strMem ['D', 'E', 'N', 'Y'] recognizedPermissionCodes = false from by decide]
      · by_cases hR : strMem m recognizedPermissionCodes
        · simp [hI, hD, hR]
        · simp [hI, hD, hR]

theorem classifyMatches_codes (ms : List Str) :
    (classifyMatches ms).codes = ms.filter (fun m => strMem m recognizedPermissionCodes) := by
  rw [classifyMatches, classify_codes_eq]
  rfl

theorem recognized_codes_wellformed :
    ∀ c ∈ recognizedPermissionCodes, pyUpper (pyStrip c) = c ∧ ',' ∉ c := by decide

theorem normCodes_pyJoin_recognized (codes : List Str) (hne : codes ≠ [])
    (hsub : ∀ c ∈ codes, c ∈ recognizedPermissionCodes) :
    normCodes (pyJoin [','] codes) = codes := by
  unfold normCodes
  rw [pySplit_pyJoin ',' codes hne
    (fun x hx => (recognized_codes_wellformed x (hsub x hx)).2)]
  calc codes.map (fun code => pyUpper (pyStrip code))
      = codes.map id := List.map_congr_left
        (fun x hx => (recognized_codes_wellformed x (hsub x hx)).1)
    _ = codes := List.map_id codes

theorem convert_full_of_memF (codes : List Str)
    (hsub : ∀ c ∈ codes, c ∈ recognizedPermissionCodes)
    (hF : "F".toList ∈ codes) :
    convert_to_readable_permissions (pyJoin [','] codes) = fullControlPhrase := by
  have hne : codes ≠ [] := fun h => by simp [h] at hF
  unfold convert_to_readable_permissions
  rw [normCodes_pyJoin_recognized codes hne hsub]
  rw [if_pos]
  exact (hasAnyOf_iff codes fullControlCodes).mpr ⟨"F".toList, hF, by decide⟩

theorem buildReadable_bridge : ∀ (r w d x : Bool),
    joinReadable (buildReadableList r w false d x)
      = pyJoin ", ".toList (claimedReadableList r w x d) := by decide

/-- C2: for every comma-joined code string, `_convert_to_readable_permissions`
follows exactly the precedence stated by the spec: full control
(`F`/`FC`/`FULLCONTROL`), then modify (`M`/`MODIFY`), then the four
booleans (`RX` forcing `has_read` and `has_execute`) assembled in the fixed
order Read, Write, Change, Delete, List with no duplicates, and the empty
string when no boolean is true. -/
theorem convert_follows_claimed_precedence (permission_code : Str) :
    convert_to_readable_permissions permission_code = claimed_convert permission_code := by
  unfold convert_to_readable_permissions claimed_convert
  cases hfc : hasAnyOf (normCodes permission_code) fullControlCodes
  · cases hm : hasAnyOf (normCodes permission_code) modifyCodes
    · simp only [hfc, hm, Bool.false_eq_true, if_false]
      exact buildReadable_bridge _ _ _ _
    · simp only [hfc, hm, Bool.false_eq_true, if_false, if_true]
  · simp only [hfc, if_true]

/-!
A characterization of the records emitted for one icacls line
-/

/-- Any record emitted by the per-line parser comes from the unique
successful branch: a positive first occurrence of `':('` in the stripped
line, a nonempty trimmed identity, a nonempty converted permission built
from the classified extracted groups, and the classifier's access type and
inheritance flag. -/
theorem mem_parseIcaclsLine {p : Str} {t : DateTime} {i : Nat} {raw : Str}
    {e : PermissionEntry} (h : e ∈ parseIcaclsLine p t i raw) :
    ∃ pos, pyFind colonParen (pyStrip raw) = some pos ∧ 0 < pos ∧
      e.path = p ∧ e.timestamp = t ∧
      e.identity = pyStrip ((pyStrip raw).take pos) ∧ e.identity ≠ [] ∧
      e.permission = convert_to_readable_permissions
        (pyJoin [','] (classifyMatches (findParenGroups ((pyStrip raw).drop (pos + 2)))).codes) ∧
      e.permission ≠ [] ∧
      (classifyMatches (findParenGroups ((pyStrip raw).drop (pos + 2)))).codes ≠ [] ∧
      e.access_type
        = (classifyMatches (findParenGroups ((pyStrip raw).drop (pos + 2)))).access_type ∧
      e.inherited
        = (classifyMatches (findParenGroups ((pyStrip raw).drop (pos + 2)))).inherited := by
  unfold parseIcaclsLine at h
  simp only [] at h
  split at h
  · exact absurd h (List.not_mem_nil e)
  · split at h
    · exact absurd h (List.not_mem_nil e)
    · split at h
      · exact absurd h (List.not_mem_nil e)
      · rename_i pos hfind
        split at h
        · split at h
          · exact absurd h (List.not_mem_nil e)
          · split at h
            · exact absurd h (List.not_mem_nil e)
            · split at h
              · rename_i hpos hpm hcodes hok
                rw [List.mem_singleton] at h
                subst h
                refine ⟨pos, hfind, hpos, rfl, rfl, rfl, hok.1, rfl, ?_, ?_, rfl, rfl⟩
                · intro hh
                  exact hok.2 hh
                · intro hh
                  exact hcodes (by rw [hh]; rfl)
              · exact absurd h (List.not_mem_nil e)
        · exact absurd h (List.not_mem_nil e)

/-!
Claim C1
-/

/-- C1 counterexample: the line `u:(I)(FULLCONTROL)(R)` carries
`FULLCONTROL` among its parenthesized flag groups, yet the record the
parser emits for it does not carry the full-control permission phrase
(`FULLCONTROL` is not in the line-level recognized-code set, so only `R`
survives and the permission is `Read, List`). -/
theorem fullcontrol_line_not_full_control :
    ¬ ∀ e ∈ parseIcaclsLine demoPath demoTime 1 demoFullcontrolLine,
        e.permission = fullControlPhrase := by decide

/-- C1 (amended): whenever `F` is among the parenthesized flag groups the
parser actually extracts from a line (`lineExtractedGroups`, which excludes
the first group after `':('` because the source drops its opening
parenthesis along with `':('`), every record emitted for that line has the
permission phrase `Read, Write, Change, Delete, List`. -/
theorem f_flag_group_forces_full_control (p : Str) (t : DateTime) (i : Nat) (raw : Str)
    (hF : "F".toList ∈ lineExtractedGroups raw) :
    ∀ e ∈ parseIcaclsLine p t i raw, e.permission = fullControlPhrase := by
  intro e he
  obtain ⟨pos, hfind, _, _, _, _, _, hperm, _, _, _, _⟩ := mem_parseIcaclsLine he
  unfold lineExtractedGroups at hF
  rw [hfind] at hF
  rw [hperm]
  apply convert_full_of_memF
  · intro c hc
    rw [classifyMatches_codes] at hc
    exact (strMem_iff c recognizedPermissionCodes).mp (List.mem_filter.mp hc).2
  · rw [classifyMatches_codes]
    exact List.mem_filter.mpr ⟨hF, by decide⟩

/-- C1 witness: the line `u:(I)(F)(R)` has `F` among its extracted groups
and indeed yields a record whose permission is the full-control phrase. -/
theorem f_flag_group_forces_full_control_witness :
    demoFEntry.permission = fullControlPhrase :=
  f_flag_group_forces_full_control demoPath demoTime 1 demoFLine (by decide)
    demoFEntry (by decide)

/-!
Claim C3
-/

/-- Any record emitted by the PowerShell fallback parser has a nonempty
permission column. -/
theorem mem_parse_powershell_nonempty {t : DateTime} {out : Str} {e : PermissionEntry}
    (h : e ∈ parse_powershell_output t out) : e.permission ≠ [] := by
  unfold parse_powershell_output at h
  rw [List.mem_flatMap] at h
  obtain ⟨raw, _, h⟩ := h
  unfold parsePowershellLine at h
  simp only [] at h
  split at h
  · split at h
    · split at h
      · rename_i hperm
        rw [List.mem_singleton] at h
        subst h
        exact hperm
      · exact absurd h (List.not_mem_nil e)
    · exact absurd h (List.not_mem_nil e)
  · exact absurd h (List.not_mem_nil e)

/-- C3: every record stored by a scan — through the icacls parsing path or
through the PowerShell fallback path — has a nonempty permission string. -/
theorem scan_records_have_nonempty_permission (envs : List ScanEnv) (e : PermissionEntry)
    (h : e ∈ scan_folders envs) : e.permission ≠ [] := by
  rw [scan_folders, List.mem_flatMap] at h
  obtain ⟨env, _, h⟩ := h
  unfold scan_single_folder at h
  split at h
  · exact absurd h (List.not_mem_nil e)
  · revert h
    have hps : ∀ hh : e ∈ scan_single_folder_powershell env, e.permission ≠ [] := by
      intro hh
      unfold scan_single_folder_powershell at hh
      split at hh
      · exact absurd hh (List.not_mem_nil e)
      · split at hh
        · exact mem_parse_powershell_nonempty hh
        · exact absurd hh (List.not_mem_nil e)
    split
    · exact hps
    · split
      · exact hps
      · intro h
        rw [parse_icacls_output, List.mem_flatMap] at h
        obtain ⟨pair, _, h⟩ := h
        obtain ⟨_, _, _, _, _, _, _, _, hne, _, _, _⟩ := mem_parseIcaclsLine h
        exact hne

/-- C3 witness: the concrete scan of `demoOkEnv` stores `demoOkEntry`,
whose permission is nonempty. -/
theorem scan_records_have_nonempty_permission_witness : demoOkEntry.permission ≠ [] :=
  scan_records_have_nonempty_permission [demoOkEnv] demoOkEntry (by decide)

/-!
Claim C4
-/

/-- C4: when the path exists and the icacls invocation fails (nonzero exit
code or exception), the scan of that directory is exactly the PowerShell
fallback scan; when the fallback fails too (nonzero exit, empty stripped
output, or exception), the directory contributes the empty list and a
multi-directory scan around it is unaffected. -/
theorem failed_scan_falls_back_then_continues (env : ScanEnv)
    (hex : env.pathExists = true) (hic : icaclsFailed env.icacls = true) :
    scan_single_folder env = scan_single_folder_powershell env
      ∧ (powershellFailed env.powershell = true →
          scan_single_folder env = [] ∧
          ∀ pre post : List ScanEnv,
            scan_folders (pre ++ env :: post) = scan_folders pre ++ scan_folders post) := by
  have hfall : scan_single_folder env = scan_single_folder_powershell env := by
    unfold scan_single_folder
    rw [if_neg (by rw [hex]; exact fun hh => Bool.noConfusion hh)]
    cases hcmd : env.icacls with
    | exn => rfl
    | ok rc out err =>
      rw [hcmd] at hic
      have hrc : rc ≠ 0 := of_decide_eq_true (by exact hic)
      show (if rc ≠ 0 then scan_single_folder_powershell env else _) = _
      rw [if_pos hrc]
  refine ⟨hfall, fun hps => ?_⟩
  have hnil : scan_single_folder env = [] := by
    rw [hfall]
    unfold scan_single_folder_powershell
    cases hcmd : env.powershell with
    | exn => rfl
    | ok rc out err =>
      rw [hcmd] at hps
      have hps' : (decide (rc ≠ 0) || (pyStrip out).isEmpty) = true := hps
      show (if rc = 0 ∧ pyStrip out ≠ [] then parse_powershell_output env.now out else []) = []
      rw [if_neg]
      rcases Bool.or_eq_true_iff.mp hps' with h1 | h2
      · exact fun hc => (of_decide_eq_true h1) hc.1
      · exact fun hc => hc.2 (List.isEmpty_iff.mp h2)
  refine ⟨hnil, fun pre post => ?_⟩
  unfold scan_folders
  rw [List.flatMap_append, List.flatMap_cons, hnil, List.nil_append]

/-- C4 witness: a directory whose icacls call raises and whose PowerShell
fallback exits nonzero yields no records, and a two-directory scan around
it splits cleanly. -/
theorem failed_scan_falls_back_witness :
    scan_single_folder demoFailedEnv = []
      ∧ scan_folders ([demoOkEnv] ++ demoFailedEnv :: [])
          = scan_folders [demoOkEnv] ++ scan_folders [] := by
  have h := failed_scan_falls_back_then_continues demoFailedEnv rfl (by decide)
  exact ⟨(h.2 (by decide)).1, (h.2 (by decide)).2 [demoOkEnv] []⟩

/-!
Claims C5 and C6: the first flag group after `':('` is lost
-/

/-- C5: on the line `u:(DENY)(R)` the parser, which takes the flag payload
as `line[pos + 2:]` (dropping the opening parenthesis of the first flag
group together with `':('`), never sees the `DENY` group and emits an
`Allow` record, while the parser the spec describes (payload from `':('`
onward) sees `DENY` and emits a `Deny` record. -/
theorem payload_after_colon_paren_loses_first_group :
    parseIcaclsLine demoPath demoTime 1 demoDenyLineShort
        = [{ path := demoPath, identity := "u".toList,
             permission := "Read, List".toList, access_type := "Allow".toList,
             inherited := false, timestamp := demoTime }]
      ∧ parseIcaclsLineSpecPayload demoPath demoTime 1 demoDenyLineShort
        = [{ path := demoPath, identity := "u".toList,
             permission := "Read, List".toList, access_type := "Deny".toList,
             inherited := false, timestamp := demoTime }] := by decide

/-- C6: the spec's end-to-end example line `DOMAIN\jdoe:(DENY)(R)` is
parsed into a record whose access type is `Allow`, not the documented
`Deny`: the `(DENY)` group is the first one after `':('` and its opening
parenthesis is consumed by the split, so the classifier never sees it. -/
theorem deny_example_evaluates_to_allow :
    parseIcaclsLine demoPath demoTime 1 demoDenyLine
      = [{ path := demoPath, identity := "DOMAIN\\jdoe".toList,
           permission := "Read, List".toList, access_type := "Allow".toList,
           inherited := false, timestamp := demoTime }] := by decide

/-!
Claim C9
-/

/-- C9: a line whose first `':('` sits at position 0, or whose trimmed
identity prefix is empty, emits no record; and every emitted record has a
nonempty identity. -/
theorem record_requires_positive_split_and_identity (p : Str) (t : DateTime) (i : Nat)
    (raw : Str) :
    (∀ pos, pyFind colonParen (pyStrip raw) = some pos →
        pos = 0 ∨ pyStrip ((pyStrip raw).take pos) = [] →
        parseIcaclsLine p t i raw = [])
      ∧ ∀ e ∈ parseIcaclsLine p t i raw, e.identity ≠ [] := by
  constructor
  · intro pos hfind hbad
    cases hres : parseIcaclsLine p t i raw with
    | nil => rfl
    | cons e rest =>
      exfalso
      have he : e ∈ parseIcaclsLine p t i raw := by
        rw [hres]; exact List.mem_cons_self e rest
      obtain ⟨pos', hfind', hpos', _, _, hid, hidne, _⟩ := mem_parseIcaclsLine he
      rw [hfind] at hfind'
      have hpp : pos = pos' := Option.some_injective _ hfind'
      subst hpp
      rcases hbad with h0 | hemp
      · omega
      · exact hidne (hid.trans hemp)
  · intro e he
    obtain ⟨_, _, _, _, _, _, hidne, _⟩ := mem_parseIcaclsLine he
    exact hidne

/-- C9 witness: the line `:(F)` has its `':('` at position 0 and yields no
record. -/
theorem record_requires_positive_split_witness :
    parseIcaclsLine demoPath demoTime 1 demoColonFirstLine = [] :=
  (record_requires_positive_split_and_identity demoPath demoTime 1 demoColonFirstLine).1
    0 (by decide) (Or.inl rfl)

/-!
Claim C10
-/

/-- C10: `get_summary_stats` classifies every record as exactly one of
inherited or explicit, so those two counters sum to `total_entries`, which
is the length of the input list; and the empty list yields all-zero
statistics. -/
theorem summary_stats_partition (permissions : List PermissionEntry) :
    (get_summary_stats permissions).inherited_permissions
          + (get_summary_stats permissions).explicit_permissions
        = (get_summary_stats permissions).total_entries
      ∧ (get_summary_stats permissions).total_entries = permissions.length
      ∧ get_summary_stats [] = ⟨0, 0, 0, 0, 0, 0, 0⟩ := by
  refine ⟨?_, ?_, rfl⟩
  · cases permissions with
    | nil => rfl
    | cons e l =>
      unfold get_summary_stats
      rw [if_neg (fun hh => Bool.noConfusion hh)]
      exact (List.length_eq_length_filter_add (fun p : PermissionEntry => p.inherited)).symm
  · cases permissions with
    | nil => rfl
    | cons e l =>
      unfold get_summary_stats
      rw [if_neg (fun hh => Bool.noConfusion hh)]

/-!
Claim C8
-/

theorem isPrefixOf_iff_exists_append : ∀ (p s : Str),
    p.isPrefixOf s = true ↔ ∃ u, s = p ++ u
  | [], s => by
    simp only [List.isPrefixOf, List.nil_append]
    exact ⟨fun _ => ⟨s, rfl⟩, fun _ => trivial⟩
  | c :: p', [] => by
    simp only [List.isPrefixOf]
    constructor
    · intro hh; exact Bool.noConfusion hh
    · rintro ⟨u, hu⟩; exact List.noConfusion hu
  | c :: p', d :: s' => by
    simp only [List.isPrefixOf, Bool.and_eq_true, beq_iff_eq,
      isPrefixOf_iff_exists_append p' s']
    constructor
    · rintro ⟨rfl, u, rfl⟩; exact ⟨u, rfl⟩
    · rintro ⟨u, hu⟩
      rw [List.cons_append] at hu
      injection hu with h1 h2
      exact ⟨h1.symm, u, h2⟩

theorem pyFind_isSome_iff (pat : Str) : ∀ (s : Str),
    (pyFind pat s).isSome = true ↔ ∃ l r, s = l ++ pat ++ r
  | [] => by
    unfold pyFind
    by_cases hp : pat.isEmpty
    · rw [if_pos hp, List.isEmpty_iff.mp hp]
      exact ⟨fun _ => ⟨[], [], rfl⟩, fun _ => rfl⟩
    · rw [if_neg hp]
      constructor
      · intro hh; exact Bool.noConfusion hh
      · rintro ⟨l, r, hh⟩
        rcases List.append_eq_nil.mp ((List.append_assoc l pat r ▸ hh.symm))
          with ⟨-, h2⟩
        rcases List.append_eq_nil.mp h2 with ⟨h3, -⟩
        exact absurd (List.isEmpty_iff.mpr h3) hp
  | c :: t => by
    unfold pyFind
    by_cases hpre : pat.isPrefixOf (c :: t)
    · rw [if_pos hpre]
      obtain ⟨u, hu⟩ := (isPrefixOf_iff_exists_append pat (c :: t)).mp hpre
      exact ⟨fun _ => ⟨[], u, by rw [hu, List.nil_append]⟩, fun _ => rfl⟩
    · rw [if_neg hpre, Option.isSome_map']
      rw [pyFind_isSome_iff pat t]
      constructor
      · rintro ⟨l, r, rfl⟩
        exact ⟨c :: l, r, rfl⟩
      · rintro ⟨l, r, hh⟩
        cases l with
        | nil =>
          exfalso
          rw [List.nil_append] at hh
          exact hpre ((isPrefixOf_iff_exists_append pat (c :: t)).mpr
            ⟨r, by rw [hh]⟩)
        | cons c' l' =>
          rw [List.cons_append, List.cons_append] at hh
          exact ⟨l', r, (List.cons.injEq .. ▸ hh).2⟩

/-- C8: `is_ad_group identity` is true exactly when one of the fixed
indicator strings `DOMAIN\`, `BUILTIN\`, `\Domain`, `\` occurs as a
substring of the upper-cased identity. The function is a pure total
function of its argument: it carries no state and cannot fail. -/
theorem is_ad_group_iff_indicator_substring (identity : Str) :
    is_ad_group identity = true
      ↔ ∃ ind ∈ adIndicators, ∃ l r, pyUpper identity = l ++ ind ++ r := by
  unfold is_ad_group
  rw [List.any_eq_true]
  refine exists_congr fun ind => and_congr_right fun _ => ?_
  unfold pyContainsSub
  exact pyFind_isSome_iff ind (pyUpper identity)

/-!
Claim C7: CSV round trip
-/

theorem prependHead_ne_nil (p : Str) (l : List Str) : prependHead p l ≠ [] := by
  cases l <;> simp [prependHead]

theorem prependHead_nil_of_ne (l : List Str) (h : l ≠ []) : prependHead [] l = l := by
  cases l with
  | nil => exact absurd rfl h
  | cons f fs => simp [prependHead]

theorem prependHead_prependHead (a b : Str) (l : List Str) :
    prependHead a (prependHead b l) = prependHead (a ++ b) l := by
  cases l <;> simp [prependHead]

theorem prependHead_cons (c : Char) (p : Str) (l : List Str) :
    prependHead (c :: p) l = prependHead [c] (prependHead p l) := by
  cases l <;> simp [prependHead]

theorem csvSplitFields_ne_nil (q : Bool) (s : Str) : csvSplitFields q s ≠ [] := by
  cases s with
  | nil => simp [csvSplitFields]
  | cons c rest =>
    unfold csvSplitFields
    split
    · exact prependHead_ne_nil _ _
    · split
      · simp
      · exact prependHead_ne_nil _ _

theorem csvSplitFields_quote (q : Bool) (rest : Str) :
    csvSplitFields q ('"' :: rest) = prependHead ['"'] (csvSplitFields (!q) rest) := by
  simp [csvSplitFields]

theorem csvSplitFields_comma (rest : Str) :
    csvSplitFields false (',' :: rest) = [] :: csvSplitFields false rest := by
  simp [csvSplitFields]

theorem csvSplitFields_other (q : Bool) (c : Char) (rest : Str) (hq : ¬c = '"')
    (hcm : ¬(c = ',' ∧ q = false)) :
    csvSplitFields q (c :: rest) = prependHead [c] (csvSplitFields q rest) := by
  simp [csvSplitFields, hq, hcm]

theorem split_escape_segment : ∀ (f rest : Str),
    csvSplitFields true (csvEscape f ++ rest)
      = prependHead (csvEscape f) (csvSplitFields true rest)
  | [], rest => by
    rw [show csvEscape [] = [] from rfl, List.nil_append,
      prependHead_nil_of_ne _ (csvSplitFields_ne_nil true rest)]
  | c :: f', rest => by
    by_cases hc : c = '"'
    · subst hc
      have he : csvEscape ('"' :: f') = '"' :: '"' :: csvEscape f' := by simp [csvEscape]
      rw [he, List.cons_append, List.cons_append, csvSplitFields_quote, Bool.not_true,
        csvSplitFields_quote, Bool.not_false, split_escape_segment f' rest]
      simp only [prependHead_prependHead, List.singleton_append]
    · have he : csvEscape (c :: f') = c :: csvEscape f' := by simp [csvEscape, hc]
      rw [he, List.cons_append,
        csvSplitFields_other true c _ hc (fun hh => Bool.noConfusion hh.2),
        split_escape_segment f' rest]
      simp only [prependHead_prependHead, List.singleton_append]

theorem split_plain_segment : ∀ (f rest : Str), (∀ c ∈ f, c ≠ '"' ∧ c ≠ ',') →
    csvSplitFields false (f ++ rest) = prependHead f (csvSplitFields false rest)
  | [], rest, _ => by
    rw [List.nil_append, prependHead_nil_of_ne _ (csvSplitFields_ne_nil false rest)]
  | c :: f', rest, h => by
    have hc := h c (List.mem_cons_self c f')
    rw [List.cons_append, csvSplitFields_other false c _ hc.1 (fun hh => hc.2 hh.1),
      split_plain_segment f' rest (fun x hx => h x (List.mem_cons_of_mem _ hx))]
    simp only [prependHead_prependHead, List.singleton_append]

theorem not_needsQuote_chars {f : Str} (hq : csvNeedsQuote f = false) :
    ∀ c ∈ f, c ≠ '"' ∧ c ≠ ',' := by
  intro c hc
  unfold csvNeedsQuote at hq
  rw [List.any_eq_false] at hq
  have hcq := hq c hc
  constructor
  · intro hh; subst hh; simp at hcq
  · intro hh; subst hh; simp at hcq

theorem split_field_head (f rest : Str) :
    csvSplitFields false (csvField f ++ rest)
      = prependHead (csvField f) (csvSplitFields false rest) := by
  unfold csvField
  by_cases hq : csvNeedsQuote f
  · rw [if_pos hq, List.cons_append, csvSplitFields_quote, Bool.not_false,
      List.append_assoc, split_escape_segment f (['"'] ++ rest),
      show ['"'] ++ rest = '"' :: rest from rfl, csvSplitFields_quote, Bool.not_true]
    simp only [prependHead_prependHead]
    rfl
  · rw [if_neg hq]
    exact split_plain_segment f rest (not_needsQuote_chars (Bool.eq_false_iff.mpr hq))

theorem csvUnquote_csvEscape : ∀ (f : Str), csvUnquote (csvEscape f) = f
  | [] => rfl
  | c :: f' => by
    by_cases hc : c = '"'
    · subst hc
      rw [show csvEscape ('"' :: f') = '"' :: '"' :: csvEscape f' from by simp [csvEscape]]
      rw [show csvUnquote ('"' :: '"' :: csvEscape f') = '"' :: csvUnquote (csvEscape f')
        from by simp [csvUnquote]]
      rw [csvUnquote_csvEscape f']
    · rw [show csvEscape (c :: f') = c :: csvEscape f' from by simp [csvEscape, hc]]
      have hE : csvUnquote (c :: csvEscape f') = c :: csvUnquote (csvEscape f') := by
        cases hf : csvEscape f' with
        | nil => simp [csvUnquote]
        | cons d r => simp [csvUnquote, hc]
      rw [hE, csvUnquote_csvEscape f']

theorem csvDecodeField_csvField (f : Str) : csvDecodeField (csvField f) = f := by
  unfold csvField
  by_cases hq : csvNeedsQuote f
  · rw [if_pos hq]
    rw [show csvDecodeField ('"' :: (csvEscape f ++ ['"']))
        = csvUnquote ((csvEscape f ++ ['"']).dropLast) from by simp [csvDecodeField]]
    rw [List.dropLast_concat, csvUnquote_csvEscape]
  · rw [if_neg hq]
    cases f with
    | nil => rfl
    | cons c f' =>
      have hc : c ≠ '"' :=
        ((not_needsQuote_chars (Bool.eq_false_iff.mpr hq)) c (List.mem_cons_self c f')).1
      simp [csvDecodeField, hc]

theorem csvParseRow_csvWriteRow : ∀ (fields : List Str), fields ≠ [] →
    csvParseRow (csvWriteRow fields) = fields
  | [], h => absurd rfl h
  | [f], _ => by
    have h1 : csvWriteRow [f] = csvField f ++ [] := by
      unfold csvWriteRow
      rw [List.append_nil]
      rfl
    unfold csvParseRow
    rw [h1, split_field_head]
    rw [show csvSplitFields false [] = [[]] from rfl]
    rw [show prependHead (csvField f) [[]] = [csvField f ++ []] from rfl, List.append_nil]
    rw [List.map_singleton, csvDecodeField_csvField]
  | f :: g :: fs, _ => by
    have h1 : csvWriteRow (f :: g :: fs) = csvField f ++ (',' :: csvWriteRow (g :: fs)) := by
      unfold csvWriteRow
      rw [show ((f :: g :: fs).map csvField) = csvField f :: ((g :: fs).map csvField) from rfl]
      rw [show pyJoin [','] (csvField f :: ((g :: fs).map csvField))
          = csvField f ++ [','] ++ pyJoin [','] ((g :: fs).map csvField) from rfl]
      rw [List.append_assoc]
      rfl
    unfold csvParseRow
    rw [h1, split_field_head, csvSplitFields_comma]
    rw [show prependHead (csvField f) ([] :: csvSplitFields false (csvWriteRow (g :: fs)))
        = (csvField f ++ []) :: csvSplitFields false (csvWriteRow (g :: fs)) from rfl,
      List.append_nil]
    rw [List.map_cons, csvDecodeField_csvField]
    have ih := csvParseRow_csvWriteRow (g :: fs) (List.cons_ne_nil g fs)
    unfold csvParseRow at ih
    rw [ih]

/-- C7: re-parsing each exported CSV record column-for-column reproduces
the `(path, identity, permission, access_type, inherited)` tuple of every
entry in order; the Scan Time column is exactly the
`%Y-%m-%d %H:%M:%S`-formatted timestamp, and that format is lossy only
below the second (the microsecond field never affects it). -/
theorem csv_export_roundtrip (perms : List PermissionEntry) :
    ((export_to_csv_rows perms).tail.map (fun row => rowTuple (csvParseRow row)))
        = perms.map (fun e => some (e.path, e.identity, e.permission, e.access_type, e.inherited))
      ∧ ((export_to_csv_rows perms).tail.map (fun row => (csvParseRow row).getD 5 []))
        = perms.map (fun e => pyStrftime e.timestamp)
      ∧ ∀ (t : DateTime) (us : Nat),
          pyStrftime { t with microsecond := us } = pyStrftime t := by
  have key : ∀ e : PermissionEntry,
      csvParseRow (csvWriteRow (to_dict_fields e)) = to_dict_fields e :=
    fun e => csvParseRow_csvWriteRow (to_dict_fields e) (by simp [to_dict_fields])
  refine ⟨?_, ?_, fun t us => rfl⟩
  · rw [export_to_csv_rows, List.tail_cons, List.map_map]
    refine List.map_congr_left fun e _ => ?_
    show rowTuple (csvParseRow (csvWriteRow (to_dict_fields e))) = _
    rw [key e]
    cases hb : e.inherited <;> simp [rowTuple, to_dict_fields, pyBoolStr, hb]
  · rw [export_to_csv_rows, List.tail_cons, List.map_map]
    refine List.map_congr_left fun e _ => ?_
    show (csvParseRow (csvWriteRow (to_dict_fields e))).getD 5 [] = _
    rw [key e]
    rfl
